import Mathlib

/-!
Shallow embedding of the kagami particle-simulation core, translated from the
TypeScript sources:

* `ParticleManager` (pool, spawn, burst, update, deactivate, clearAll)
* the force library (`forces.ts`): spring, magnetic, gravity, turbulence, boundary
* `PhysicsSystem.update` (force accumulation, damping)
* `SpatialHash` (uniform grid) and `ConstellationSystem.update`

Numeric values are modelled over an ordered field: the lifecycle/pool code is
polymorphic (instantiated at `ℚ` so concrete runs can be evaluated by `decide`),
while the force and constellation code, which computes Euclidean norms via
`Math.sqrt`, is modelled over `ℝ`.  JavaScript side effects that do not touch
simulation state (instanced-mesh writes, event-bus emissions, console warnings)
are not modelled.  Randomness (`Math.random()` draws) is modelled by passing the
drawn values in explicitly.
-/

set_option maxHeartbeats 4000000
set_option maxRecDepth 100000

namespace Kagami

/-- 3D vector, modelling `THREE.Vector3` over an ordered field. -/
structure Vec3 (K : Type) where
  x : K
  y : K
  z : K
  deriving DecidableEq

instance {K : Type} [Add K] : Add (Vec3 K) :=
  ⟨fun a b => ⟨a.x + b.x, a.y + b.y, a.z + b.z⟩⟩

instance {K : Type} [Sub K] : Sub (Vec3 K) :=
  ⟨fun a b => ⟨a.x - b.x, a.y - b.y, a.z - b.z⟩⟩

instance {K : Type} [Mul K] : SMul K (Vec3 K) :=
  ⟨fun c v => ⟨c * v.x, c * v.y, c * v.z⟩⟩

instance {K : Type} [Zero K] : Zero (Vec3 K) :=
  ⟨⟨0, 0, 0⟩⟩

/-- `distanceSquared` from `utils/math.ts`. -/
def distanceSquared {K : Type} [CommRing K] (a b : Vec3 K) : K :=
  (a.x - b.x) * (a.x - b.x) + (a.y - b.y) * (a.y - b.y) + (a.z - b.z) * (a.z - b.z)

/-- `lerp` from `utils/math.ts`: `a + (b - a) * t`. -/
def lerp {K : Type} [CommRing K] (a b t : K) : K :=
  a + (b - a) * t

/-- `clamp` from `utils/math.ts`: `Math.max(min, Math.min(max, value))`. -/
def clamp {K : Type} [LinearOrder K] (value lo hi : K) : K :=
  max lo (min hi value)

/-- `randomRange(min, max)` returns `min + Math.random() * (max - min)`;
the uniform draw `u ∈ [0,1)` is passed explicitly. -/
def randomRange {K : Type} [CommRing K] (lo hi u : K) : K :=
  lo + u * (hi - lo)

/-- The colony labels: the keys of `COLONY_COLORS` in `KagamiExperience`. -/
inductive Colony where
  | void | spark | forge | flow | nexus | beacon | grove | crystal
  deriving DecidableEq

/-- The `COLONY_COLORS` hex table from `KagamiExperience`. -/
def COLONY_COLORS : Colony → String
  | .void => "#D4A853"
  | .spark => "#FF7043"
  | .forge => "#FFB74D"
  | .flow => "#4DD0E1"
  | .nexus => "#B388FF"
  | .beacon => "#FFE0B2"
  | .grove => "#81C784"
  | .crystal => "#4FC3F7"

/-- Particle record from `ParticleManager` (interface `Particle`).  The color is
kept as the color string stored by the code (channel arithmetic is never
observed by the pool's own logic). -/
structure Particle (K : Type) where
  id : ℕ
  active : Bool
  position : Vec3 K
  velocity : Vec3 K
  acceleration : Vec3 K
  targetPosition : Option (Vec3 K)
  life : K
  maxLife : K
  color : String
  size : K
  baseSize : K
  colony : Option Colony
  deriving DecidableEq

/-- `SpawnConfig` from `ParticleManager`; every field is optional. -/
structure SpawnConfig (K : Type) where
  position : Option (Vec3 K) := none
  velocity : Option (Vec3 K) := none
  color : Option String := none
  size : Option K := none
  life : Option K := none
  colony : Option Colony := none
  targetPosition : Option (Vec3 K) := none
  deriving DecidableEq

/-- The random draws one call to `spawn` may consume: the `randomInSphere(3)`
position, the three `randomRange(-0.01, 0.01)` velocity components (bundled as
a vector), and the uniform draws behind `randomRange(0.5, 1.5)` and
`randomRange(5, 15)`. -/
structure SpawnDraws (K : Type) where
  posDraw : Vec3 K
  velDraw : Vec3 K
  sizeU : K
  lifeU : K
  deriving DecidableEq

/-- JavaScript `a || b` on an optional numeric field: `undefined` and `0` both
fall through to the default (this is how `config.size || randomRange(0.5, 1.5)`
and `config.life || randomRange(5, 15)` behave). -/
def jsOrNum {K : Type} [Zero K] [DecidableEq K] (o : Option K) (d : K) : K :=
  match o with
  | none => d
  | some v => if v = 0 then d else v

/-- Pool state of a `ParticleManager`: the slot array, the fixed capacity
`MAX_PARTICLES`, the `activeCount` counter (a plain JS number, hence `ℤ`), and
the `prefersReducedMotion` flag. -/
structure ManagerState (K : Type) where
  pool : List (Particle K)
  maxParticles : ℕ
  activeCount : ℤ
  prefersReducedMotion : Bool
  deriving DecidableEq

/-- A freshly constructed pool slot (constructor loop of `ParticleManager`). -/
def initParticle {K : Type} [Zero K] [One K] (i : ℕ) : Particle K :=
  { id := i
    active := false
    position := 0
    velocity := 0
    acceleration := 0
    targetPosition := none
    life := 0
    maxLife := 1
    color := COLONY_COLORS .void
    size := 1
    baseSize := 1
    colony := none }

/-- `new ParticleManager(scene, maxParticles)`: a pool of `n` inactive slots. -/
def initState (K : Type) [Zero K] [One K] (n : ℕ) (prm : Bool) : ManagerState K :=
  { pool := (List.range n).map initParticle
    maxParticles := n
    activeCount := 0
    prefersReducedMotion := prm }

/-- `pool.find(p => !p.active)`: index and contents of the first free slot. -/
def findFree {K : Type} : List (Particle K) → Option (ℕ × Particle K)
  | [] => none
  | p :: rest =>
      if p.active then (findFree rest).map (fun q => (q.1 + 1, q.2)) else some (0, p)

/-- Field initialization performed by `ParticleManager.spawn` on the free slot
it found. -/
def spawnParticle {K : Type} [LinearOrderedField K] [DecidableEq K]
    (cfg : SpawnConfig K) (d : SpawnDraws K) (p0 : Particle K) : Particle K :=
  let baseSize := jsOrNum cfg.size (randomRange (1/2) (3/2) d.sizeU)
  let maxLife := jsOrNum cfg.life (randomRange 5 15 d.lifeU)
  { p0 with
    active := true
    position := cfg.position.getD d.posDraw
    velocity := cfg.velocity.getD d.velDraw
    acceleration := 0
    targetPosition := cfg.targetPosition
    color :=
      match cfg.color with
      | some c => c
      | none =>
          match cfg.colony with
          | some col => COLONY_COLORS col
          | none => COLONY_COLORS .void
    colony := cfg.colony
    baseSize := baseSize
    size := baseSize
    maxLife := maxLife
    life := maxLife }

namespace ParticleManager

/-- `ParticleManager.spawn(config)`: take the first inactive slot, configure it,
bump `activeCount`, and return the particle; return `null` (here `none`) with
the state untouched when the pool is exhausted. -/
def spawn {K : Type} [LinearOrderedField K] [DecidableEq K]
    (cfg : SpawnConfig K) (d : SpawnDraws K) (s : ManagerState K) :
    Option (Particle K) × ManagerState K :=
  match findFree s.pool with
  | none => (none, s)
  | some (i, p0) =>
      let p := spawnParticle cfg d p0
      (some p, { s with pool := s.pool.set i p, activeCount := s.activeCount + 1 })

end ParticleManager

/-- `ParticleManager.deactivate(particle)`: mark the slot free and zero its
life (the instanced-mesh hiding is rendering state, not modelled). -/
def deactivateParticle {K : Type} [Zero K] (p : Particle K) : Particle K :=
  { p with active := false, life := 0 }

/-- The per-particle body of the `ParticleManager.update` loop, given the
already-capped `dt`.  Returns the updated slot and whether this slot was
deactivated (so the caller can account for the `activeCount` decrement). -/
def updateParticle {K : Type} [LinearOrderedField K] (prm : Bool) (dt breathing : K)
    (p : Particle K) : Particle K × Bool :=
  if p.active = false then (p, false) else
  let life1 := p.life - dt
  if life1 ≤ 0 then (deactivateParticle p, true) else
  let p1 : Particle K :=
    if prm then { p with life := life1 } else
      let v1 := p.velocity + dt • p.acceleration
      let pos1 := p.position + dt • v1
      match p.targetPosition with
      | some t =>
          let v2 := ((19 : K)/20) • (v1 + ((1 : K)/50) • (t - pos1))
          { p with life := life1, velocity := v2, position := pos1, acceleration := 0 }
      | none =>
          { p with life := life1, velocity := v1, position := pos1, acceleration := 0 }
  let lifeRatio := life1 / p.maxLife
  let fadeIn := min (lifeRatio * 5) 1
  let fadeOut := min ((1 - lifeRatio) * 5) 1
  ({ p1 with size := p1.baseSize * fadeIn * (1 - fadeOut * (1/2)) * breathing }, false)

namespace ParticleManager

/-- `ParticleManager.update(deltaTime, breathingPhase)`: cap `dt` at `0.1`, run
the per-particle body over the pool, and decrement `activeCount` once per
deactivated particle. -/
def update {K : Type} [LinearOrderedField K] (deltaTime breathing : K)
    (s : ManagerState K) : ManagerState K :=
  let d := min deltaTime (1/10)
  let results := s.pool.map (updateParticle s.prefersReducedMotion d breathing)
  { s with
    pool := results.map Prod.fst
    activeCount := s.activeCount - ((results.filter (fun r => r.2)).length : ℤ) }

/-- Count of slots with `active == true` (the class keeps this in the
`activeCount` counter; this is its ground-truth value). -/
def countActive {K : Type} (l : List (Particle K)) : ℕ :=
  (l.filter (fun p => p.active)).length

/-- `ParticleManager.clearAll()`: deactivate every active particle (one
`activeCount` decrement each). -/
def clearAll {K : Type} [Zero K] (s : ManagerState K) : ManagerState K :=
  { s with
    pool := s.pool.map (fun p => if p.active then deactivateParticle p else p)
    activeCount := s.activeCount - (countActive s.pool : ℤ) }

/-- The internal `deactivate` entry point, exposed as an operation.  Every call
site in the source (`update` on expiry, `clearAll`) invokes it only on a
currently active slot, so the operation carries that guard. -/
def deactivateAt {K : Type} [Zero K] (i : ℕ) (s : ManagerState K) : ManagerState K :=
  match s.pool.get? i with
  | some p =>
      if p.active then
        { s with pool := s.pool.set i (deactivateParticle p), activeCount := s.activeCount - 1 }
      else s
  | none => s

/-- `ParticleManager.getActiveCount()`. -/
def getActiveCount {K : Type} (s : ManagerState K) : ℤ :=
  s.activeCount

/-- `ParticleManager.getActive()`. -/
def getActive {K : Type} (s : ManagerState K) : List (Particle K) :=
  s.pool.filter (fun p => p.active)

end ParticleManager

/-- The random draws consumed by one iteration of the `burst` loop: the
normalized `randomInSphere(1)` direction, the uniform draws behind the speed,
life and size ranges, and the draws handed to the inner `spawn` call. -/
structure BurstDraw (K : Type) where
  dir : Vec3 K
  speedU : K
  lifeU : K
  sizeU : K
  sd : SpawnDraws K

/-- The spawn configuration built by one `burst` iteration. -/
def burstCfg {K : Type} [LinearOrderedField K] (intensity : K) (origin : Vec3 K)
    (d : BurstDraw K) : SpawnConfig K :=
  { position := some origin
    velocity := some ((randomRange (1/20) (3/20) d.speedU * intensity) • d.dir)
    life := some (randomRange 1 3 d.lifeU)
    size := some (randomRange (4/5) (3/2) d.sizeU) }

namespace ParticleManager

/-- `ParticleManager.burst(intensity, center)`:
`count = min(floor(10 * intensity), MAX_PARTICLES - activeCount)` spawns at the
origin point (default `(0, 1.6, -2)`). -/
def burst {K : Type} [LinearOrderedField K] [FloorRing K] [DecidableEq K]
    (intensity : K) (center : Option (Vec3 K)) (dr : ℕ → BurstDraw K)
    (s : ManagerState K) : ManagerState K :=
  let count := (min ⌊(10 : K) * intensity⌋ ((s.maxParticles : ℤ) - s.activeCount)).toNat
  let origin := center.getD ⟨0, 8/5, -2⟩
  (List.range count).foldl
    (fun st i => (spawn (burstCfg intensity origin (dr i)) (dr i).sd st).2) s

end ParticleManager

/-- The externally reachable pool operations (claim C2's operation language). -/
inductive MOp (K : Type) where
  | spawn (cfg : SpawnConfig K) (d : SpawnDraws K)
  | burst (intensity : K) (center : Option (Vec3 K)) (dr : ℕ → BurstDraw K)
  | update (deltaTime breathing : K)
  | clearAll
  | deactivate (i : ℕ)

/-- Apply one operation to the pool state. -/
def applyOp {K : Type} [LinearOrderedField K] [FloorRing K] [DecidableEq K] :
    MOp K → ManagerState K → ManagerState K
  | .spawn cfg d, s => (ParticleManager.spawn cfg d s).2
  | .burst i c dr, s => ParticleManager.burst i c dr s
  | .update dt b, s => ParticleManager.update dt b s
  | .clearAll, s => ParticleManager.clearAll s
  | .deactivate i, s => ParticleManager.deactivateAt i s

/-- Run a sequence of operations. -/
def runOps {K : Type} [LinearOrderedField K] [FloorRing K] [DecidableEq K]
    (ops : List (MOp K)) (s : ManagerState K) : ManagerState K :=
  ops.foldl (fun st op => applyOp op st) s

/-! ### Spatial hash (`SpatialHash` in `utils/math.ts`)

The code keys cells by the string `"cx,cy,cz"`; since that encoding is
injective in the integer triple, cells are keyed by the triple directly. -/

/-- Uniform-grid hash: cell size plus the (total) map from cell key to the
list of inserted ids, in insertion order. -/
structure SpatialHash (K : Type) where
  cellSize : K
  cells : ℤ × ℤ × ℤ → List ℕ

/-- `getKey(x, y, z)`: `floor(coordinate / cellSize)` per axis. -/
def SpatialHash.getKey {K : Type} [LinearOrderedField K] [FloorRing K]
    (h : SpatialHash K) (x y z : K) : ℤ × ℤ × ℤ :=
  (⌊x / h.cellSize⌋, ⌊y / h.cellSize⌋, ⌊z / h.cellSize⌋)

/-- `new SpatialHash(cellSize)`: empty map. -/
def SpatialHash.empty {K : Type} (cellSize : K) : SpatialHash K :=
  ⟨cellSize, fun _ => []⟩

/-- `clear()`. -/
def SpatialHash.clear {K : Type} (h : SpatialHash K) : SpatialHash K :=
  { h with cells := fun _ => [] }

/-- `insert(id, position)`: append the id to its cell bucket. -/
def SpatialHash.insert {K : Type} [LinearOrderedField K] [FloorRing K]
    (h : SpatialHash K) (pid : ℕ) (pos : Vec3 K) : SpatialHash K :=
  let key := h.getKey pos.x pos.y pos.z
  { h with cells := fun k => if k = key then h.cells k ++ [pid] else h.cells k }

/-- The 27 cell offsets visited by `getNearby`, in loop order
(`dx` outermost, `dz` innermost). -/
def neighborOffsets : List (ℤ × ℤ × ℤ) :=
  ([-1, 0, 1] : List ℤ).flatMap (fun dx =>
    ([-1, 0, 1] : List ℤ).flatMap (fun dy =>
      ([-1, 0, 1] : List ℤ).map (fun dz => (dx, dy, dz))))

/-- `getNearby(position)`: concatenate the buckets of the 3×3×3 block of cells
around the query point's cell. -/
def SpatialHash.getNearby {K : Type} [LinearOrderedField K] [FloorRing K]
    (h : SpatialHash K) (pos : Vec3 K) : List ℕ :=
  let c := h.getKey pos.x pos.y pos.z
  neighborOffsets.flatMap (fun d => h.cells (c.1 + d.1, c.2.1 + d.2.1, c.2.2 + d.2.2))

/-- Insert a batch of `(id, position)` pairs (the per-frame rebuild loop). -/
def SpatialHash.insertAll {K : Type} [LinearOrderedField K] [FloorRing K]
    (h : SpatialHash K) (items : List (ℕ × Vec3 K)) : SpatialHash K :=
  items.foldl (fun acc it => acc.insert it.1 it.2) h

/-! ### Force library (`physics/forces.ts`), over `ℝ`

These functions compute Euclidean norms via `Math.sqrt`, so they are modelled
over `ℝ` with `Real.sqrt`. -/

/-- `THREE.Vector3.length()`. -/
noncomputable def length3 (v : Vec3 ℝ) : ℝ :=
  Real.sqrt (v.x * v.x + v.y * v.y + v.z * v.z)

/-- `THREE.Vector3.normalize()`: `divideScalar(length() || 1)` — a zero-length
vector is divided by 1 (i.e. left unchanged). -/
noncomputable def normalize3 (v : Vec3 ℝ) : Vec3 ℝ :=
  let len := length3 v
  (if len = 0 then (1 : ℝ) else len)⁻¹ • v

/-- `calculateSpringForce`: `-stiffness * (position - target) - damping * velocity`. -/
noncomputable def calculateSpringForce (position target velocity : Vec3 ℝ)
    (stiffness damping : ℝ) : Vec3 ℝ :=
  (-stiffness) • (position - target) + (-damping) • velocity

/-- `calculateMagneticForce`: inverse-square force toward the attractor, with
the distance clamped into `[minDistance, maxDistance]` before the `0.001`
guard and before the magnitude computation. -/
noncomputable def calculateMagneticForce (position attractor : Vec3 ℝ)
    (strength minDistance maxDistance : ℝ) : Vec3 ℝ :=
  let direction := attractor - position
  let distance := clamp (length3 direction) minDistance maxDistance
  if distance < 1/1000 then 0
  else (strength / (distance * distance)) • normalize3 direction

/-- Gravity falloff selector (`'constant' | 'linear' | 'quadratic'`). -/
inductive Falloff where
  | constant
  | linear
  | quadratic
  deriving DecidableEq

/-- `calculateGravityForce`: force toward `center` with selectable falloff and
the `0.001` guard on the (unclamped) distance. -/
noncomputable def calculateGravityForce (position center : Vec3 ℝ)
    (strength : ℝ) (falloffType : Falloff) : Vec3 ℝ :=
  let direction := center - position
  let distance := length3 direction
  if distance < 1/1000 then 0
  else
    let forceMagnitude :=
      match falloffType with
      | .constant => strength
      | .linear => strength / distance
      | .quadratic => strength / (distance * distance)
    forceMagnitude • normalize3 direction

/-- `calculateTurbulenceForce`: deterministic trigonometric pseudo-noise. -/
noncomputable def calculateTurbulenceForce (position : Vec3 ℝ)
    (time strength frequency : ℝ) : Vec3 ℝ :=
  let x := Real.sin (position.x * frequency + time) *
           Real.cos (position.y * frequency * (7/10) + time * (4/5))
  let y := Real.sin (position.y * frequency + time * (11/10)) *
           Real.cos (position.z * frequency * (4/5) + time * (9/10))
  let z := Real.sin (position.z * frequency + time * (9/10)) *
           Real.cos (position.x * frequency * (3/5) + time * (6/5))
  strength • (⟨x, y, z⟩ : Vec3 ℝ)

/-- `THREE.Box3` (only the two corner vectors are used by the code). -/
structure Box3 where
  min : Vec3 ℝ
  max : Vec3 ℝ

/-- One axis of `calculateBoundaryForce` (the code repeats this block verbatim
for x, y and z). -/
noncomputable def boundaryAxis (p lo hi strength softness : ℝ) : ℝ :=
  if p < lo + softness then strength * (1 - (p - lo) / softness)
  else if hi - softness < p then -strength * (1 - (hi - p) / softness)
  else 0

/-- `calculateBoundaryForce`: soft per-axis restoring force inside a margin of
the bounding box. -/
noncomputable def calculateBoundaryForce (position : Vec3 ℝ) (bounds : Box3)
    (strength softness : ℝ) : Vec3 ℝ :=
  ⟨boundaryAxis position.x bounds.min.x bounds.max.x strength softness,
   boundaryAxis position.y bounds.min.y bounds.max.y strength softness,
   boundaryAxis position.z bounds.min.z bounds.max.z strength softness⟩

/-! ### `PhysicsSystem` (`physics/PhysicsSystem.ts`) -/

/-- A gravity well (interface `GravityWell`). -/
structure GravityWell where
  id : String
  position : Vec3 ℝ
  strength : ℝ
  radius : ℝ
  falloff : Falloff
  active : Bool

/-- `PhysicsConfig`. -/
structure PhysicsConfig where
  enabled : Bool
  magneticCursor : Bool
  magneticStrength : ℝ
  magneticRadius : ℝ
  globalGravity : Vec3 ℝ
  damping : ℝ
  bounds : Box3
  boundaryStrength : ℝ

/-- `DEFAULT_CONFIG` of `PhysicsSystem`. -/
noncomputable def defaultPhysicsConfig : PhysicsConfig :=
  { enabled := true
    magneticCursor := true
    magneticStrength := 1/2
    magneticRadius := 3
    globalGravity := ⟨0, -(1/100), 0⟩
    damping := 49/50
    bounds := ⟨⟨-10, -5, -10⟩, ⟨10, 10, 10⟩⟩
    boundaryStrength := 1/2 }

/-- Mutable state of a `PhysicsSystem` (gravity wells are kept as a list in
`Map` insertion order). -/
structure PhysicsState where
  config : PhysicsConfig
  gravityWells : List GravityWell
  cursorPosition : Vec3 ℝ
  cursorActive : Bool
  cursorRepel : Bool
  time : ℝ
  prefersReducedMotion : Bool

/-- The force accumulated for one particle by the body of the
`PhysicsSystem.update` loop (with `st.time` already advanced): global gravity,
magnetic cursor (radius-gated, sign flipped under repel, `minDistance = 0.2`),
active gravity wells (radius-gated), spring to `targetPosition`
(stiffness 0.1, damping 0.5), boundary force (softness 1.0) and light
turbulence (strength 0.01, frequency 0.5). -/
noncomputable def totalForce (st : PhysicsState) (p : Particle ℝ) : Vec3 ℝ :=
  let f0 : Vec3 ℝ := 0 + st.config.globalGravity
  let f1 :=
    if st.config.magneticCursor = true ∧ st.cursorActive = true then
      if length3 (p.position - st.cursorPosition) < st.config.magneticRadius then
        let strength :=
          if st.cursorRepel then -st.config.magneticStrength else st.config.magneticStrength
        f0 + calculateMagneticForce p.position st.cursorPosition strength (1/5) st.config.magneticRadius
      else f0
    else f0
  let f2 := st.gravityWells.foldl (fun acc well =>
      if well.active then
        if length3 (p.position - well.position) < well.radius then
          acc + calculateGravityForce p.position well.position well.strength well.falloff
        else acc
      else acc) f1
  let f3 :=
    match p.targetPosition with
    | some t => f2 + calculateSpringForce p.position t p.velocity (1/10) (1/2)
    | none => f2
  let f4 := f3 + calculateBoundaryForce p.position st.config.bounds st.config.boundaryStrength 1
  f4 + calculateTurbulenceForce p.position st.time (1/100) (1/2)

/-- Per-particle mutation performed by `PhysicsSystem.update`:
`acceleration += totalForce` then `velocity *= damping`. -/
noncomputable def physicsStepParticle (st : PhysicsState) (p : Particle ℝ) : Particle ℝ :=
  { p with
    acceleration := p.acceleration + totalForce st p
    velocity := st.config.damping • p.velocity }

/-- `PhysicsSystem.update(deltaTime)`: no-op when disabled or reduced-motion;
otherwise advance `time` by the capped delta and run the per-particle body over
every active particle (the pool list stands for the manager's pool, of which
`getActive()` is the active sublist, mutated in place). -/
noncomputable def PhysicsSystem.update (deltaTime : ℝ) (st : PhysicsState)
    (pool : List (Particle ℝ)) : PhysicsState × List (Particle ℝ) :=
  if st.config.enabled = false ∨ st.prefersReducedMotion = true then (st, pool)
  else
    let cappedDelta := min deltaTime (1/10)
    let st1 := { st with time := st.time + cappedDelta }
    (st1, pool.map (fun p => if p.active then physicsStepParticle st1 p else p))

/-- One frame of `KagamiExperience.update` restricted to the simulation core:
`physics.update(delta)`, then `physics.setCursorPosition(...)`, then
`particleManager.update(delta, phase)`.  (The mouse-trail spawn attempt and the
constellation rebuild do not mutate existing particles' kinematics.) -/
noncomputable def frameStep (dt breathing : ℝ) (cursorPos : Vec3 ℝ)
    (st : PhysicsState) (s : ManagerState ℝ) : PhysicsState × ManagerState ℝ :=
  let r := PhysicsSystem.update dt st s.pool
  let st2 := { r.1 with cursorPosition := cursorPos, cursorActive := true }
  (st2, ParticleManager.update dt breathing { s with pool := r.2 })

/-- Modelled from the spec: the integration sequence exactly as §4.4 step 3
words it — `velocity += acceleration * dt`; apply the damping multiplier to
velocity; `position += velocity * dt`.  Used only to compare the claimed
ordering against the code. -/
noncomputable def specIntegrate (damping dt : ℝ) (velocity acceleration position : Vec3 ℝ) :
    Vec3 ℝ × Vec3 ℝ :=
  let v1 := velocity + dt • acceleration
  let v2 := damping • v1
  (v2, position + dt • v2)

/-! ### `ConstellationSystem` (`particles/ConstellationSystem.ts`)

The vertex/color buffer writes are rendering output; the connection list below
records, per accepted pair, what `addConnection` computes and in which order.
Blended connection colors are not modelled (no claim observes them). -/

/-- `ConstellationConfig` (the material-only `lineColor` is omitted). -/
structure ConstellationConfig where
  connectionDistance : ℝ
  maxConnections : ℕ
  lineOpacity : ℝ
  fadeWithDistance : Bool

/-- One emitted connection. -/
structure Connection where
  aId : ℕ
  bId : ℕ
  aPos : Vec3 ℝ
  bPos : Vec3 ℝ
  opacity : ℝ

/-- `ConstellationSystem.addConnection`: opacity is `(1 - distance/threshold)²`
when `fadeWithDistance`, else 1, times the breathing factor `lerp(0.5, 1, phase)`. -/
noncomputable def addConnection (cfg : ConstellationConfig) (breathing : ℝ)
    (a b : Particle ℝ) (distance : ℝ) : Connection :=
  let opacity0 :=
    if cfg.fadeWithDistance then (1 - distance / cfg.connectionDistance) ^ 2 else 1
  { aId := a.id
    bId := b.id
    aPos := a.position
    bPos := b.position
    opacity := opacity0 * lerp (1/2) 1 breathing }

/-- Inner loop of `ConstellationSystem.update` over the neighbor ids of one
particle: skip self, dedupe via the canonical pair key, look the other particle
up by id, apply the exact distance filter, and stop (`break`) once
`maxConnections` is reached. -/
noncomputable def connectLoop (cfg : ConstellationConfig) (breathing : ℝ)
    (particles : List (Particle ℝ)) (p : Particle ℝ) :
    List ℕ → List (ℕ × ℕ) → List Connection → List (ℕ × ℕ) × List Connection
  | [], checked, conns => (checked, conns)
  | oid :: rest, checked, conns =>
      if oid = p.id then connectLoop cfg breathing particles p rest checked conns
      else
        let pairKey := (min p.id oid, max p.id oid)
        if pairKey ∈ checked then connectLoop cfg breathing particles p rest checked conns
        else
          match particles.find? (fun q => q.id == oid) with
          | none => connectLoop cfg breathing particles p rest (pairKey :: checked) conns
          | some other =>
              let distSq := distanceSquared p.position other.position
              if cfg.connectionDistance * cfg.connectionDistance < distSq then
                connectLoop cfg breathing particles p rest (pairKey :: checked) conns
              else if cfg.maxConnections ≤ conns.length then (pairKey :: checked, conns)
              else
                connectLoop cfg breathing particles p rest (pairKey :: checked)
                  (conns ++ [addConnection cfg breathing p other (Real.sqrt distSq)])

/-- Outer loop of `ConstellationSystem.update`: one `connectLoop` pass per
particle, stopping once `maxConnections` is reached. -/
noncomputable def connectOuter (cfg : ConstellationConfig) (breathing : ℝ)
    (particles : List (Particle ℝ)) (hash : SpatialHash ℝ) :
    List (Particle ℝ) → List (ℕ × ℕ) → List Connection → List Connection
  | [], _, conns => conns
  | p :: rest, checked, conns =>
      let r := connectLoop cfg breathing particles p (hash.getNearby p.position) checked conns
      if cfg.maxConnections ≤ r.2.length then r.2
      else connectOuter cfg breathing particles hash rest r.1 r.2

/-- `ConstellationSystem.update(particles, breathingPhase)`: under reduced
motion, no connections; otherwise rebuild the spatial hash (cell size =
`connectionDistance`, per the constructor) from the given particles and emit
the connection list. -/
noncomputable def ConstellationSystem.update (cfg : ConstellationConfig) (prm : Bool)
    (particles : List (Particle ℝ)) (breathing : ℝ) : List Connection :=
  if prm then []
  else
    let hash := (SpatialHash.empty cfg.connectionDistance).insertAll
      (particles.map (fun p => (p.id, p.position)))
    connectOuter cfg breathing particles hash particles [] []

/-! ### Invariants and scenario inputs -/

/-- The pool bookkeeping invariant: the slot array never changes length, and
the `activeCount` counter equals the number of slots with `active == true`. -/
def Inv {K : Type} (s : ManagerState K) : Prop :=
  s.pool.length = s.maxParticles ∧
    s.activeCount = (ParticleManager.countActive s.pool : ℤ)

/-- All-zero spawn draws (used by concrete scenarios; the drawn values are
immaterial when the config fixes the fields a run observes). -/
def zeroDrawsQ : SpawnDraws ℚ :=
  { posDraw := 0, velDraw := 0, sizeU := 0, lifeU := 0 }

/-- Capacity-2 pool after two successful spawns (claim C3's scenario). -/
def c3state : ManagerState ℚ :=
  (ParticleManager.spawn {} zeroDrawsQ
    (ParticleManager.spawn {} zeroDrawsQ (initState ℚ 2 false)).2).2

/-- The spawn configuration of claim C1's scenario: `life = 5`. -/
def c1cfg : SpawnConfig ℚ :=
  { life := some 5 }

/-- Claim C1's operation sequence: spawn 10 particles with `life = 5`, then
call `update` 51 times with `dt = 0.1` (breathing phase 1). -/
def c1ops : List (MOp ℚ) :=
  List.replicate 10 (MOp.spawn c1cfg zeroDrawsQ) ++
    List.replicate 51 (MOp.update (1/10) 1)

/-- Characterizes the slots reachable in claim C1's run: any active slot
carries life `L`, `maxLife = 5`, zero velocity and acceleration and no spring
target (so its update trajectory is pure lifecycle). -/
def SimpleLife {K : Type} [Zero K] [OfNat K 5] (L : K) (p : Particle K) : Prop :=
  p.active = true →
    p.life = L ∧ p.maxLife = 5 ∧ p.velocity = 0 ∧ p.acceleration = 0 ∧
      p.targetPosition = none

/-- A concrete active particle (witness scenarios for C1 and C6). -/
def activeTestParticle : Particle ℚ :=
  { id := 0
    active := true
    position := 0
    velocity := 0
    acceleration := 0
    targetPosition := none
    life := 5
    maxLife := 5
    color := COLONY_COLORS .void
    size := 1
    baseSize := 1
    colony := none }

/-- A one-slot pool holding `activeTestParticle` (witness scenario for C6). -/
def c6state : ManagerState ℚ :=
  { pool := [activeTestParticle]
    maxParticles := 1
    activeCount := 1
    prefersReducedMotion := false }

/-- Physics state for the C4 scenario: default configuration, no gravity
wells, cursor not yet activated, simulation time 0. -/
noncomputable def c4physics : PhysicsState :=
  { config := defaultPhysicsConfig
    gravityWells := []
    cursorPosition := ⟨0, 8/5, -3⟩
    cursorActive := false
    cursorRepel := false
    time := 0
    prefersReducedMotion := false }

/-- A single active particle at rest at the origin with no spring target
(C4 scenario). -/
noncomputable def c4particle : Particle ℝ :=
  { id := 0
    active := true
    position := ⟨0, 0, 0⟩
    velocity := ⟨0, 0, 0⟩
    acceleration := ⟨0, 0, 0⟩
    targetPosition := none
    life := 5
    maxLife := 5
    color := COLONY_COLORS .void
    size := 1
    baseSize := 1
    colony := none }

/-- A one-slot manager pool holding `c4particle`. -/
noncomputable def c4mgr : ManagerState ℝ :=
  { pool := [c4particle]
    maxParticles := 1
    activeCount := 1
    prefersReducedMotion := false }

/-- Claim C8's first particle: id 0 at the origin. -/
noncomputable def c8particleA : Particle ℝ :=
  { c4particle with id := 0, position := ⟨0, 0, 0⟩ }

/-- Claim C8's second particle: id 1 at `(1, 0, 0)`. -/
noncomputable def c8particleB : Particle ℝ :=
  { c4particle with id := 1, position := ⟨1, 0, 0⟩ }

/-- Constellation configuration with connection threshold 2.0 (the default). -/
noncomputable def c8cfg2 : ConstellationConfig :=
  { connectionDistance := 2
    maxConnections := 200
    lineOpacity := 2/5
    fadeWithDistance := true }

/-- Constellation configuration with connection threshold 0.5. -/
noncomputable def c8cfg05 : ConstellationConfig :=
  { connectionDistance := 1/2
    maxConnections := 200
    lineOpacity := 2/5
    fadeWithDistance := true }

/-! ## Helper lemmas -/

theorem Vec3.zero_def {K : Type} [Zero K] : (0 : Vec3 K) = ⟨0, 0, 0⟩ := rfl

theorem Vec3.add_def {K : Type} [Add K] (a b : Vec3 K) :
    a + b = ⟨a.x + b.x, a.y + b.y, a.z + b.z⟩ := rfl

theorem Vec3.smul_def {K : Type} [Mul K] (c : K) (v : Vec3 K) :
    c • v = ⟨c * v.x, c * v.y, c * v.z⟩ := rfl

theorem Vec3.sub_def {K : Type} [Sub K] (a b : Vec3 K) :
    a - b = ⟨a.x - b.x, a.y - b.y, a.z - b.z⟩ := rfl

theorem Vec3.smul_zero3 {K : Type} [MulZeroClass K] (c : K) :
    c • (0 : Vec3 K) = 0 := by
  simp [Vec3.smul_def, Vec3.zero_def]

theorem Vec3.add_zero3 {K : Type} [AddZeroClass K] (v : Vec3 K) :
    v + 0 = v := by
  simp [Vec3.add_def, Vec3.zero_def]

theorem Vec3.zero_add3 {K : Type} [AddZeroClass K] (v : Vec3 K) :
    0 + v = v := by
  simp [Vec3.add_def, Vec3.zero_def]

namespace ParticleManager

theorem countActive_nil {K : Type} : countActive ([] : List (Particle K)) = 0 := rfl

theorem countActive_cons {K : Type} (p : Particle K) (l : List (Particle K)) :
    countActive (p :: l) = (if p.active then 1 else 0) + countActive l := by
  by_cases h : p.active <;> simp [countActive, List.filter_cons, h] <;> omega

theorem countActive_le_length {K : Type} (l : List (Particle K)) :
    countActive l ≤ l.length :=
  List.length_filter_le _ _

theorem countActive_eq_zero {K : Type} {l : List (Particle K)}
    (h : ∀ p ∈ l, p.active = false) : countActive l = 0 := by
  induction l with
  | nil => rfl
  | cons p rest ih =>
      have hp := h p (by simp)
      simp [countActive_cons, hp, ih (fun q hq => h q (by simp [hq]))]

end ParticleManager

theorem findFree_eq_some {K : Type} :
    ∀ {l : List (Particle K)} {i : ℕ} {p : Particle K},
      findFree l = some (i, p) → l.get? i = some p ∧ p.active = false := by
  intro l
  induction l with
  | nil => intro i p h; simp [findFree] at h
  | cons q rest ih =>
      intro i p h
      by_cases hq : q.active
      · simp only [findFree, hq, if_pos, Option.map_eq_some'] at h
        obtain ⟨⟨j, r⟩, hjr, hmap⟩ := h
        cases hmap
        have := ih hjr
        simpa using this
      · simp only [findFree, hq, if_neg, Option.some.injEq] at h
        cases h
        simpa using hq

theorem findFree_eq_none {K : Type} :
    ∀ {l : List (Particle K)}, findFree l = none ↔ ∀ p ∈ l, p.active = true := by
  intro l
  induction l with
  | nil => simp [findFree]
  | cons q rest ih =>
      by_cases hq : q.active <;> simp [findFree, hq, ih]

namespace ParticleManager

theorem countActive_set_activate {K : Type} :
    ∀ (l : List (Particle K)) (i : ℕ) (p q : Particle K),
      l.get? i = some p → p.active = false → q.active = true →
      countActive (l.set i q) = countActive l + 1 := by
  intro l
  induction l with
  | nil => intro i p q h; simp at h
  | cons r rest ih =>
      intro i p q hg hp hq
      cases i with
      | zero =>
          simp only [List.get?] at hg
          cases hg
          simp [List.set, countActive_cons, hp, hq]
          omega
      | succ j =>
          simp only [List.get?] at hg
          simp [List.set, countActive_cons, ih j p q hg hp hq]
          omega

theorem countActive_set_deactivate {K : Type} :
    ∀ (l : List (Particle K)) (i : ℕ) (p q : Particle K),
      l.get? i = some p → p.active = true → q.active = false →
      countActive l = countActive (l.set i q) + 1 := by
  intro l
  induction l with
  | nil => intro i p q h; simp at h
  | cons r rest ih =>
      intro i p q hg hp hq
      cases i with
      | zero =>
          simp only [List.get?] at hg
          cases hg
          simp [List.set, countActive_cons, hp, hq]
          omega
      | succ j =>
          simp only [List.get?] at hg
          simp [List.set, countActive_cons, ih j p q hg hp hq]
          omega

end ParticleManager

theorem spawnParticle_active {K : Type} [LinearOrderedField K] [DecidableEq K]
    (cfg : SpawnConfig K) (d : SpawnDraws K) (p0 : Particle K) :
    (spawnParticle cfg d p0).active = true := rfl

theorem spawn_inv {K : Type} [LinearOrderedField K] [DecidableEq K]
    (cfg : SpawnConfig K) (d : SpawnDraws K) {s : ManagerState K} (h : Inv s) :
    Inv (ParticleManager.spawn cfg d s).2 := by
  obtain ⟨hlen, hcnt⟩ := h
  unfold ParticleManager.spawn
  cases hf : findFree s.pool with
  | none => exact ⟨hlen, hcnt⟩
  | some ip =>
      obtain ⟨i, p0⟩ := ip
      obtain ⟨hg, hp0⟩ := findFree_eq_some hf
      refine ⟨?_, ?_⟩
      · simpa [List.length_set] using hlen
      · have := ParticleManager.countActive_set_activate s.pool i p0
          (spawnParticle cfg d p0) hg hp0 (spawnParticle_active cfg d p0)
        simp only [this]
        omega

theorem updateParticle_cases {K : Type} [LinearOrderedField K]
    (prm : Bool) (dt b : K) (p : Particle K) :
    ((updateParticle prm dt b p).1.active = p.active ∧
        (updateParticle prm dt b p).2 = false) ∨
      (p.active = true ∧ (updateParticle prm dt b p).1.active = false ∧
        (updateParticle prm dt b p).2 = true) := by
  unfold updateParticle
  by_cases hp : p.active = false
  · simp [hp]
  · have hp' : p.active = true := by
      cases h : p.active
      · exact absurd h hp
      · rfl
    by_cases hl : p.life - dt ≤ 0
    · right
      simp [hp', hl, deactivateParticle]
    · left
      cases prm with
      | true => simp [hp', hl]
      | false => cases ht : p.targetPosition <;> simp [hp', hl, ht]

theorem update_count {K : Type} [LinearOrderedField K] (prm : Bool) (dt b : K) :
    ∀ l : List (Particle K),
      ParticleManager.countActive ((l.map (updateParticle prm dt b)).map Prod.fst) +
        ((l.map (updateParticle prm dt b)).filter (fun r => r.2)).length =
      ParticleManager.countActive l := by
  intro l
  induction l with
  | nil => rfl
  | cons p rest ih =>
      rcases updateParticle_cases prm dt b p with ⟨ha, hf⟩ | ⟨hp, ha, hf⟩
      · by_cases hpa : p.active <;>
          simp_all [ParticleManager.countActive_cons, List.filter_cons] <;> omega
      · simp_all [ParticleManager.countActive_cons, List.filter_cons]
        omega

theorem update_inv {K : Type} [LinearOrderedField K] (dt b : K)
    {s : ManagerState K} (h : Inv s) : Inv (ParticleManager.update dt b s) := by
  obtain ⟨hlen, hcnt⟩ := h
  refine ⟨by simpa [ParticleManager.update] using hlen, ?_⟩
  have := update_count s.prefersReducedMotion (min dt (1/10)) b s.pool
  simp only [ParticleManager.update]
  omega

theorem clearAll_pool_count {K : Type} [Zero K] (l : List (Particle K)) :
    ParticleManager.countActive
      (l.map (fun p => if p.active then deactivateParticle p else p)) = 0 := by
  refine ParticleManager.countActive_eq_zero ?_
  intro p hp
  obtain ⟨q, hq, hmap⟩ := List.mem_map.mp hp
  by_cases h : q.active <;> simp [h, deactivateParticle] at hmap <;> simp [← hmap]
  simpa using h

theorem clearAll_inv {K : Type} [Zero K] {s : ManagerState K} (h : Inv s) :
    Inv (ParticleManager.clearAll s) := by
  obtain ⟨hlen, hcnt⟩ := h
  refine ⟨by simpa [ParticleManager.clearAll] using hlen, ?_⟩
  simp only [ParticleManager.clearAll, clearAll_pool_count]
  omega

theorem deactivateAt_inv {K : Type} [Zero K] (i : ℕ) {s : ManagerState K}
    (h : Inv s) : Inv (ParticleManager.deactivateAt i s) := by
  obtain ⟨hlen, hcnt⟩ := h
  unfold ParticleManager.deactivateAt
  cases hg : s.pool.get? i with
  | none => exact ⟨hlen, hcnt⟩
  | some p =>
      by_cases hp : p.active
      · simp only [hp, if_pos]
        refine ⟨by simpa [List.length_set] using hlen, ?_⟩
        have := ParticleManager.countActive_set_deactivate s.pool i p
          (deactivateParticle p) hg hp rfl
        simp only [this] at hcnt ⊢
        omega
      · simp only [hp, if_neg, Bool.false_eq_true, not_false_iff]
        exact ⟨hlen, hcnt⟩

theorem burst_inv {K : Type} [LinearOrderedField K] [FloorRing K] [DecidableEq K]
    (intensity : K) (center : Option (Vec3 K)) (dr : ℕ → BurstDraw K)
    {s : ManagerState K} (h : Inv s) :
    Inv (ParticleManager.burst intensity center dr s) := by
  have main : ∀ (L : List ℕ) (origin : Vec3 K) {t : ManagerState K}, Inv t →
      Inv (L.foldl
        (fun st i => (ParticleManager.spawn (burstCfg intensity origin (dr i)) (dr i).sd st).2) t) := by
    intro L origin
    induction L with
    | nil => intro t h; exact h
    | cons i rest ih => intro t h; exact ih (spawn_inv _ _ h)
  exact main _ _ h

theorem applyOp_inv {K : Type} [LinearOrderedField K] [FloorRing K] [DecidableEq K]
    (op : MOp K) {s : ManagerState K} (h : Inv s) : Inv (applyOp op s) := by
  cases op with
  | spawn cfg d => exact spawn_inv cfg d h
  | burst i c dr => exact burst_inv i c dr h
  | update dt b => exact update_inv dt b h
  | clearAll => exact clearAll_inv h
  | deactivate i => exact deactivateAt_inv i h

theorem runOps_inv {K : Type} [LinearOrderedField K] [FloorRing K] [DecidableEq K]
    (ops : List (MOp K)) {s : ManagerState K} (h : Inv s) :
    Inv (runOps ops s) := by
  induction ops generalizing s with
  | nil => exact h
  | cons op rest ih => exact ih (applyOp_inv op h)

theorem initState_inv {K : Type} [Zero K] [One K] (n : ℕ) (prm : Bool) :
    Inv (initState K n prm) := by
  refine ⟨by simp [initState], ?_⟩
  have : ParticleManager.countActive ((List.range n).map (initParticle (K := K))) = 0 :=
    ParticleManager.countActive_eq_zero (by
      intro p hp
      obtain ⟨i, _, hmap⟩ := List.mem_map.mp hp
      simp [← hmap, initParticle])
  simp [initState, this]

theorem spawn_maxParticles {K : Type} [LinearOrderedField K] [DecidableEq K]
    (cfg : SpawnConfig K) (d : SpawnDraws K) (s : ManagerState K) :
    (ParticleManager.spawn cfg d s).2.maxParticles = s.maxParticles := by
  unfold ParticleManager.spawn
  cases hf : findFree s.pool with
  | none => rfl
  | some ip => obtain ⟨i, p0⟩ := ip; rfl

theorem applyOp_maxParticles {K : Type} [LinearOrderedField K] [FloorRing K]
    [DecidableEq K] (op : MOp K) (s : ManagerState K) :
    (applyOp op s).maxParticles = s.maxParticles := by
  cases op with
  | spawn cfg d => exact spawn_maxParticles cfg d s
  | burst i c dr =>
      have main : ∀ (L : List ℕ) (origin : Vec3 K) (t : ManagerState K),
          (L.foldl (fun st j =>
            (ParticleManager.spawn (burstCfg i origin (dr j)) (dr j).sd st).2) t).maxParticles =
          t.maxParticles := by
        intro L origin
        induction L with
        | nil => intro t; rfl
        | cons j rest ih =>
            intro t
            rw [List.foldl_cons, ih, spawn_maxParticles]
      exact main _ _ s
  | update dt b => rfl
  | clearAll => rfl
  | deactivate i =>
      show (ParticleManager.deactivateAt i s).maxParticles = _
      unfold ParticleManager.deactivateAt
      cases hg : s.pool.get? i with
      | none => rfl
      | some p => by_cases hp : p.active <;> simp [hp]

theorem runOps_maxParticles {K : Type} [LinearOrderedField K] [FloorRing K]
    [DecidableEq K] (ops : List (MOp K)) (s : ManagerState K) :
    (runOps ops s).maxParticles = s.maxParticles := by
  induction ops generalizing s with
  | nil => rfl
  | cons op rest ih =>
      show (runOps rest (applyOp op s)).maxParticles = _
      rw [ih, applyOp_maxParticles]

/-! ## Claim C2 -/

/-- C2: for every sequence of pool operations (spawn, burst, update, clearAll,
deactivate) starting from a freshly constructed pool of capacity `n`, the
number of particles with `active == true` never exceeds `n`, and
`getActiveCount()` (the bookkeeping counter) never exceeds `n` either. -/
theorem C2_activeCount_le_capacity (n : ℕ) (prm : Bool) (ops : List (MOp ℚ)) :
    ParticleManager.countActive (runOps ops (initState ℚ n prm)).pool ≤ n ∧
      ParticleManager.getActiveCount (runOps ops (initState ℚ n prm)) ≤ (n : ℤ) := by
  obtain ⟨hlen, hcnt⟩ := runOps_inv ops (initState_inv (K := ℚ) n prm)
  have hmax := runOps_maxParticles ops (initState ℚ n prm)
  have hle := ParticleManager.countActive_le_length (runOps ops (initState ℚ n prm)).pool
  have hn : (runOps ops (initState ℚ n prm)).pool.length = n := by
    rw [hlen, hmax]; rfl
  constructor
  · exact hle.trans_eq hn
  · simp only [ParticleManager.getActiveCount, hcnt]
    exact_mod_cast hle.trans_eq hn

/-! ## Claim C3 -/

/-- C3: when every pool slot is active, `spawn` returns the failure signal
`null` and leaves the state (hence the active set) unchanged; concretely, a
capacity-2 pool holding 2 active particles rejects a 3rd spawn while
`getActiveCount()` stays 2.  (The model is a total function, so no exception
and no blocking can occur.) -/
theorem C3_spawn_exhausted_returns_null :
    (∀ (s : ManagerState ℚ) (cfg : SpawnConfig ℚ) (d : SpawnDraws ℚ),
        (∀ p ∈ s.pool, p.active = true) →
        ParticleManager.spawn cfg d s = (none, s)) ∧
      (ParticleManager.spawn {} zeroDrawsQ c3state).1 = none ∧
      ParticleManager.spawn {} zeroDrawsQ c3state = (none, c3state) ∧
      ParticleManager.getActiveCount c3state = 2 := by
  have part1 : ∀ (s : ManagerState ℚ) (cfg : SpawnConfig ℚ) (d : SpawnDraws ℚ),
      (∀ p ∈ s.pool, p.active = true) →
      ParticleManager.spawn cfg d s = (none, s) := by
    intro s cfg d h
    unfold ParticleManager.spawn
    simp only [findFree_eq_none.mpr h]
  have hfull : ∀ p ∈ c3state.pool, p.active = true := by decide
  have happ := part1 c3state {} zeroDrawsQ hfull
  exact ⟨part1, by rw [happ], happ, by decide⟩

/-- Witness for C3: the universally quantified conjunct applied at the
concrete capacity-2 scenario. -/
theorem C3_spawn_exhausted_returns_null_witness :
    ParticleManager.spawn ({} : SpawnConfig ℚ) zeroDrawsQ c3state = (none, c3state) :=
  C3_spawn_exhausted_returns_null.1 c3state {} zeroDrawsQ (by decide)

/-! ## Claim C9 -/

theorem clearAll_map_idem {K : Type} [Zero K] (l : List (Particle K)) :
    (l.map (fun p => if p.active then deactivateParticle p else p)).map
        (fun p => if p.active then deactivateParticle p else p) =
      l.map (fun p => if p.active then deactivateParticle p else p) := by
  rw [List.map_map]
  apply List.map_congr_left
  intro p _
  by_cases h : p.active <;> simp [h, deactivateParticle]

/-- C9: on any state satisfying the pool bookkeeping invariant (which holds in
every reachable state, by `runOps_inv`), `clearAll()` releases every active
particle — `getActiveCount()` becomes 0 — and `clearAll()` is idempotent: the
second call is a no-op producing an identical state. -/
theorem C9_clearAll_releases_all_and_idempotent (s : ManagerState ℚ) (h : Inv s) :
    ParticleManager.getActiveCount (ParticleManager.clearAll s) = 0 ∧
      ParticleManager.clearAll (ParticleManager.clearAll s) =
        ParticleManager.clearAll s := by
  obtain ⟨hlen, hcnt⟩ := h
  constructor
  · simp [ParticleManager.getActiveCount, ParticleManager.clearAll, hcnt]
  · obtain ⟨pool, mx, ac, prm⟩ := s
    simp only [ParticleManager.clearAll] at *
    simp [clearAll_map_idem, clearAll_pool_count]
    intro a _ hcontra
    by_cases h : a.active <;> simp_all [deactivateParticle]

/-- Witness for C9 at a concrete reachable state (a fresh capacity-2 pool). -/
theorem C9_clearAll_witness :
    ParticleManager.getActiveCount (ParticleManager.clearAll (initState ℚ 2 false)) = 0 ∧
      ParticleManager.clearAll (ParticleManager.clearAll (initState ℚ 2 false)) =
        ParticleManager.clearAll (initState ℚ 2 false) :=
  C9_clearAll_releases_all_and_idempotent (initState ℚ 2 false) ⟨rfl, rfl⟩

/-! ## Claim C6 -/

/-- The survivor branch of the per-particle update body, fully characterized
(given the already-capped `dt`). -/
theorem updateParticle_survivor {K : Type} [LinearOrderedField K]
    (prm : Bool) (dt b : K) (p : Particle K) (hactive : p.active = true)
    (hl : ¬ p.life - dt ≤ 0) :
    (updateParticle prm dt b p).2 = false ∧
      (updateParticle prm dt b p).1.active = true ∧
      (updateParticle prm dt b p).1.life = p.life - dt ∧
      (updateParticle prm dt b p).1.baseSize = p.baseSize ∧
      (updateParticle prm dt b p).1.maxLife = p.maxLife ∧
      (updateParticle prm dt b p).1.size =
        p.baseSize * min ((p.life - dt) / p.maxLife * 5) 1 *
          (1 - min ((1 - (p.life - dt) / p.maxLife) * 5) 1 * (1/2)) * b := by
  simp only [updateParticle]
  rw [if_neg (by simp [hactive]), if_neg hl]
  cases prm with
  | true => simp [hactive]
  | false => cases ht : p.targetPosition <;> simp [ht, hactive]

/-- C6: a particle that survives a lifecycle update with breathing phase `b`
gets its size recomputed as
`baseSize * fadeIn * (1 - 0.5 * fadeOut) * b` with
`fadeIn = min (5 * lifeRatio) 1`, `fadeOut = min (5 * (1 - lifeRatio)) 1` and
`lifeRatio = life / maxLife` taken after the life decrement. -/
theorem C6_fade_envelope (deltaTime b : ℚ) (s : ManagerState ℚ) (i : ℕ)
    (p : Particle ℚ) (hp : s.pool[i]? = some p) (hactive : p.active = true)
    (hsurvive : 0 < p.life - min deltaTime (1/10)) :
    ∃ q : Particle ℚ,
      (ParticleManager.update deltaTime b s).pool[i]? = some q ∧
        q.active = true ∧
        q.size = p.baseSize *
          min (5 * ((p.life - min deltaTime (1/10)) / p.maxLife)) 1 *
          (1 - (1/2) * min (5 * (1 - (p.life - min deltaTime (1/10)) / p.maxLife)) 1) * b := by
  have hl : ¬ p.life - min deltaTime (1/10) ≤ 0 := not_le.mpr hsurvive
  obtain ⟨hf, ha, hlife, hbase, hmax, hsize⟩ :=
    updateParticle_survivor s.prefersReducedMotion (min deltaTime (1/10)) b p hactive hl
  refine ⟨(updateParticle s.prefersReducedMotion (min deltaTime (1/10)) b p).1, ?_, ha, ?_⟩
  · simp [ParticleManager.update, List.getElem?_map, hp]
  · rw [hsize]
    ring_nf

/-- Witness for C6: the particle with `life = maxLife = 5`, `baseSize = 1`
surviving an update with `dt = 0.1`, `b = 1`. -/
theorem C6_fade_envelope_witness :
    ∃ q : Particle ℚ,
      (ParticleManager.update (1/10) 1 c6state).pool[0]? = some q ∧
        q.active = true ∧
        q.size = activeTestParticle.baseSize *
          min (5 * ((activeTestParticle.life - min (1/10) (1/10)) / activeTestParticle.maxLife)) 1 *
          (1 - (1/2) *
            min (5 * (1 - (activeTestParticle.life - min (1/10) (1/10)) / activeTestParticle.maxLife)) 1) * 1 :=
  C6_fade_envelope (1/10) 1 c6state 0 activeTestParticle rfl rfl (by norm_num [activeTestParticle])

/-! ## Claim C10 -/

/-- C10: at the spawn interface, `size = 0` and `life = 0` behave like omitted
fields (JS falsy-or defaulting): the spawned particle gets the random
`baseSize = randomRange(0.5, 1.5)` draw (so `0.5 ≤ baseSize ≤ 1.5`) and the
random `maxLife = randomRange(5, 15)` draw (so `5 ≤ maxLife ≤ 15`), with
`life = maxLife > 0` — it is not spawned with size 0 nor already expired. -/
theorem C10_zero_size_life_defaulted (s : ManagerState ℚ) (cfg : SpawnConfig ℚ)
    (d : SpawnDraws ℚ) (hsize : cfg.size = some 0) (hlife : cfg.life = some 0)
    (hfree : findFree s.pool ≠ none)
    (hs0 : 0 ≤ d.sizeU) (hs1 : d.sizeU < 1) (hl0 : 0 ≤ d.lifeU) (hl1 : d.lifeU < 1) :
    ∃ p : Particle ℚ,
      (ParticleManager.spawn cfg d s).1 = some p ∧
        p.baseSize = randomRange (1/2) (3/2) d.sizeU ∧
        (1/2 : ℚ) ≤ p.baseSize ∧ p.baseSize ≤ 3/2 ∧
        p.maxLife = randomRange 5 15 d.lifeU ∧
        (5 : ℚ) ≤ p.maxLife ∧ p.maxLife ≤ 15 ∧
        p.life = p.maxLife ∧ 0 < p.life := by
  unfold ParticleManager.spawn
  cases hf : findFree s.pool with
  | none => exact absurd hf hfree
  | some ip =>
      obtain ⟨i, p0⟩ := ip
      refine ⟨spawnParticle cfg d p0, rfl, ?_⟩
      have hbase : (spawnParticle cfg d p0).baseSize = randomRange (1/2) (3/2) d.sizeU := by
        simp [spawnParticle, hsize, jsOrNum]
      have hmax : (spawnParticle cfg d p0).maxLife = randomRange 5 15 d.lifeU := by
        simp [spawnParticle, hlife, jsOrNum]
      have hlifeEq : (spawnParticle cfg d p0).life = (spawnParticle cfg d p0).maxLife := rfl
      refine ⟨hbase, ?_, ?_, hmax, ?_, ?_, hlifeEq, ?_⟩
      · rw [hbase]; unfold randomRange; nlinarith
      · rw [hbase]; unfold randomRange; nlinarith
      · rw [hmax]; unfold randomRange; nlinarith
      · rw [hmax]; unfold randomRange; nlinarith
      · rw [hlifeEq, hmax]; unfold randomRange; nlinarith

/-- Witness for C10: spawning into a fresh 1-slot pool with
`size = 0, life = 0` and zero uniform draws. -/
theorem C10_zero_size_life_defaulted_witness :
    ∃ p : Particle ℚ,
      (ParticleManager.spawn ({ size := some 0, life := some 0 } : SpawnConfig ℚ) zeroDrawsQ
          (initState ℚ 1 false)).1 = some p ∧
        p.baseSize = randomRange (1/2) (3/2) zeroDrawsQ.sizeU ∧
        (1/2 : ℚ) ≤ p.baseSize ∧ p.baseSize ≤ 3/2 ∧
        p.maxLife = randomRange 5 15 zeroDrawsQ.lifeU ∧
        (5 : ℚ) ≤ p.maxLife ∧ p.maxLife ≤ 15 ∧
        p.life = p.maxLife ∧ 0 < p.life :=
  C10_zero_size_life_defaulted (initState ℚ 1 false)
    ({ size := some 0, life := some 0 } : SpawnConfig ℚ) zeroDrawsQ rfl rfl
    (by decide) (by norm_num [zeroDrawsQ]) (by norm_num [zeroDrawsQ])
    (by norm_num [zeroDrawsQ]) (by norm_num [zeroDrawsQ])

/-! ## Claim C1 -/

theorem updateParticle_inactive {K : Type} [LinearOrderedField K]
    (prm : Bool) (dt b : K) (p : Particle K) (h : p.active = false) :
    updateParticle prm dt b p = (p, false) := by
  simp [updateParticle, h]

theorem updateParticle_expire {K : Type} [LinearOrderedField K]
    (prm : Bool) (dt b : K) (p : Particle K) (hactive : p.active = true)
    (hl : p.life - dt ≤ 0) :
    updateParticle prm dt b p = (deactivateParticle p, true) := by
  simp only [updateParticle]
  rw [if_neg (by simp [hactive]), if_pos hl]

/-- The survivor branch for a kinematically trivial particle (zero velocity
and acceleration, no spring target): only `life` and `size` change. -/
theorem updateParticle_simple (dt b : ℚ) (p : Particle ℚ) (hactive : p.active = true)
    (hv : p.velocity = 0) (ha0 : p.acceleration = 0) (ht : p.targetPosition = none)
    (hl : ¬ p.life - dt ≤ 0) :
    (updateParticle false dt b p).2 = false ∧
      (updateParticle false dt b p).1.active = true ∧
      (updateParticle false dt b p).1.life = p.life - dt ∧
      (updateParticle false dt b p).1.maxLife = p.maxLife ∧
      (updateParticle false dt b p).1.velocity = 0 ∧
      (updateParticle false dt b p).1.acceleration = 0 ∧
      (updateParticle false dt b p).1.targetPosition = none := by
  simp only [updateParticle]
  rw [if_neg (by simp [hactive]), if_neg hl]
  simp [ht, hv, ha0, hactive, Vec3.smul_zero3, Vec3.add_zero3, Vec3.zero_add3]

theorem spawn_prm {K : Type} [LinearOrderedField K] [DecidableEq K]
    (cfg : SpawnConfig K) (d : SpawnDraws K) (s : ManagerState K) :
    (ParticleManager.spawn cfg d s).2.prefersReducedMotion = s.prefersReducedMotion := by
  unfold ParticleManager.spawn
  cases hf : findFree s.pool with
  | none => rfl
  | some ip => obtain ⟨i, p0⟩ := ip; rfl

theorem c1_spawn_simple {s : ManagerState ℚ}
    (h : ∀ p ∈ s.pool, SimpleLife (5 : ℚ) p) :
    ∀ p ∈ ((ParticleManager.spawn c1cfg zeroDrawsQ s).2).pool, SimpleLife (5 : ℚ) p := by
  unfold ParticleManager.spawn
  cases hf : findFree s.pool with
  | none => exact h
  | some ip =>
      obtain ⟨i, p0⟩ := ip
      intro p hp
      rcases List.mem_or_eq_of_mem_set hp with hmem | rfl
      · exact h p hmem
      · intro _
        refine ⟨?_, ?_, ?_, ?_, ?_⟩ <;>
          simp [spawnParticle, c1cfg, zeroDrawsQ, jsOrNum]

theorem c1_spawns_simple : ∀ (k : ℕ) (s : ManagerState ℚ),
    (∀ p ∈ s.pool, SimpleLife (5 : ℚ) p) →
    (∀ p ∈ (runOps (List.replicate k (MOp.spawn c1cfg zeroDrawsQ)) s).pool,
        SimpleLife (5 : ℚ) p) ∧
      (runOps (List.replicate k (MOp.spawn c1cfg zeroDrawsQ)) s).prefersReducedMotion =
        s.prefersReducedMotion := by
  intro k
  induction k with
  | zero => intro s h; exact ⟨h, rfl⟩
  | succ n ih =>
      intro s h
      rw [List.replicate_succ]
      show (∀ p ∈ (runOps (List.replicate n _) ((ParticleManager.spawn _ _ s).2)).pool, _) ∧ _
      obtain ⟨h1, h2⟩ := ih _ (c1_spawn_simple h)
      exact ⟨h1, h2.trans (spawn_prm c1cfg zeroDrawsQ s)⟩

theorem c1_update_step {s : ManagerState ℚ} (L : ℚ) (hL : ¬ L - 1/10 ≤ 0)
    (hprm : s.prefersReducedMotion = false)
    (h : ∀ p ∈ s.pool, SimpleLife L p) :
    ∀ p ∈ (ParticleManager.update (1/10) 1 s).pool, SimpleLife (L - 1/10) p := by
  intro q hq
  simp only [ParticleManager.update, List.map_map, min_self, hprm] at hq
  obtain ⟨p, hp, rfl⟩ := List.mem_map.mp hq
  by_cases hpa : p.active = true
  · obtain ⟨hlife, hmax, hv, ha0, ht⟩ := h p hp hpa
    have hl : ¬ p.life - (1/10 : ℚ) ≤ 0 := by rw [hlife]; exact hL
    obtain ⟨_, hact, hlife', hmax', hv', ha0', ht'⟩ :=
      updateParticle_simple (1/10) 1 p hpa hv ha0 ht hl
    intro _
    exact ⟨by rw [Function.comp_apply, hlife', hlife], by rw [Function.comp_apply, hmax', hmax],
      by rw [Function.comp_apply, hv'], by rw [Function.comp_apply, ha0'],
      by rw [Function.comp_apply, ht']⟩
  · have hpa' : p.active = false := by
      cases hb : p.active
      · rfl
      · exact absurd hb hpa
    intro hcon
    rw [Function.comp_apply, updateParticle_inactive false _ 1 p hpa'] at hcon
    exact absurd hcon (by simp [hpa'])

theorem c1_update_kill {s : ManagerState ℚ} (L : ℚ) (hL : L - 1/10 ≤ 0)
    (hprm : s.prefersReducedMotion = false)
    (h : ∀ p ∈ s.pool, SimpleLife L p) :
    ∀ p ∈ (ParticleManager.update (1/10) 1 s).pool, p.active = false := by
  intro q hq
  simp only [ParticleManager.update, List.map_map, min_self, hprm] at hq
  obtain ⟨p, hp, rfl⟩ := List.mem_map.mp hq
  by_cases hpa : p.active = true
  · obtain ⟨hlife, _, _, _, _⟩ := h p hp hpa
    have hl : p.life - (1/10 : ℚ) ≤ 0 := by rw [hlife]; exact hL
    rw [Function.comp_apply, updateParticle_expire false _ 1 p hpa hl]
    rfl
  · have hpa' : p.active = false := by
      cases hb : p.active
      · rfl
      · exact absurd hb hpa
    rw [Function.comp_apply, updateParticle_inactive false _ 1 p hpa']
    exact hpa'

theorem c1_update_keep_dead {s : ManagerState ℚ}
    (h : ∀ p ∈ s.pool, p.active = false) :
    ∀ p ∈ (ParticleManager.update (1/10) 1 s).pool, p.active = false := by
  intro q hq
  simp only [ParticleManager.update, List.map_map] at hq
  obtain ⟨p, hp, rfl⟩ := List.mem_map.mp hq
  rw [Function.comp_apply, updateParticle_inactive _ _ 1 p (h p hp)]
  exact h p hp

theorem runOps_append (l1 l2 : List (MOp ℚ)) (s : ManagerState ℚ) :
    runOps (l1 ++ l2) s = runOps l2 (runOps l1 s) := by
  simp [runOps, List.foldl_append]

theorem update_prm (dt b : ℚ) (s : ManagerState ℚ) :
    (ParticleManager.update dt b s).prefersReducedMotion = s.prefersReducedMotion := rfl

theorem c1_updates_simple : ∀ (k : ℕ), k ≤ 49 → ∀ (s : ManagerState ℚ),
    s.prefersReducedMotion = false → (∀ p ∈ s.pool, SimpleLife (5 : ℚ) p) →
    (∀ p ∈ (runOps (List.replicate k (MOp.update (1/10) 1)) s).pool,
        SimpleLife (5 - (k : ℚ)/10) p) ∧
      (runOps (List.replicate k (MOp.update (1/10) 1)) s).prefersReducedMotion = false := by
  intro k
  induction k with
  | zero =>
      intro _ s hprm h
      refine ⟨?_, hprm⟩
      simpa using h
  | succ n ih =>
      intro hk s hprm h
      have hrepl : List.replicate (n + 1) (MOp.update ((1:ℚ)/10) 1) =
          List.replicate n (MOp.update ((1:ℚ)/10) 1) ++ [MOp.update ((1:ℚ)/10) 1] :=
        List.replicate_succ' n _
      obtain ⟨h1, h2⟩ := ih (by omega) s hprm h
      rw [hrepl, runOps_append]
      have hn48 : (n : ℚ) ≤ 48 := by exact_mod_cast Nat.le_of_succ_le_succ hk
      have hL : ¬ (5 - (n : ℚ)/10) - 1/10 ≤ 0 := by
        intro hcon
        nlinarith
      have hstep := c1_update_step (5 - (n : ℚ)/10) hL h2 h1
      have hcast : (5 - (n : ℚ)/10) - 1/10 = 5 - ((n + 1 : ℕ) : ℚ)/10 := by
        push_cast
        ring
      constructor
      · intro p hp
        have := hstep p (by simpa [runOps] using hp)
        rwa [hcast] at this
      · simpa [runOps, update_prm] using h2

/-- C1: per-frame, an active particle's life decreases by the clamped `dt`
(`min dt 0.1`); when the decremented life is `≤ 0` the particle is deactivated
(slot freed, `life` zeroed).  Concretely, spawning 10 particles with
`life = 5` into a fresh capacity-10 pool and updating 51 times with `dt = 0.1`
leaves `getActiveCount() = 0`. -/
theorem C1_life_decrement_and_expiry :
    (∀ (prm : Bool) (dt b : ℚ) (p : Particle ℚ), p.active = true →
        (p.life - min dt (1/10) ≤ 0 →
          updateParticle prm (min dt (1/10)) b p = (deactivateParticle p, true)) ∧
        (0 < p.life - min dt (1/10) →
          (updateParticle prm (min dt (1/10)) b p).1.active = true ∧
            (updateParticle prm (min dt (1/10)) b p).1.life = p.life - min dt (1/10))) ∧
      ParticleManager.getActiveCount (runOps c1ops (initState ℚ 10 false)) = 0 := by
  constructor
  · intro prm dt b p hactive
    constructor
    · intro hl
      exact updateParticle_expire prm _ b p hactive hl
    · intro hl
      obtain ⟨_, ha, hlife, _, _, _⟩ :=
        updateParticle_survivor prm (min dt (1/10)) b p hactive (not_le.mpr hl)
      exact ⟨ha, hlife⟩
  · have hinit : ∀ p ∈ (initState ℚ 10 false).pool, SimpleLife (5 : ℚ) p := by
      intro p hp
      obtain ⟨i, _, rfl⟩ := List.mem_map.mp hp
      intro hcon
      exact absurd hcon (by simp [initParticle])
    obtain ⟨hsp, hsprm⟩ := c1_spawns_simple 10 (initState ℚ 10 false) hinit
    have hs49 := c1_updates_simple 49 (by norm_num)
      (runOps (List.replicate 10 (MOp.spawn c1cfg zeroDrawsQ)) (initState ℚ 10 false))
      hsprm hsp
    have hL49 : (5 - ((49 : ℕ) : ℚ)/10) = 1/10 := by norm_num
    rw [hL49] at hs49
    obtain ⟨h49, hprm49⟩ := hs49
    have hkill := c1_update_kill (1/10 : ℚ) (by norm_num) hprm49 h49
    have hdead2 := c1_update_keep_dead hkill
    have hsplit : c1ops = (List.replicate 10 (MOp.spawn c1cfg zeroDrawsQ) ++
        List.replicate 49 (MOp.update (1/10) 1)) ++
        [MOp.update (1/10) 1, MOp.update (1/10) 1] := by
      unfold c1ops
      rw [List.append_assoc]
      congr 1
    have hfinalpool : ∀ p ∈ (runOps c1ops (initState ℚ 10 false)).pool, p.active = false := by
      rw [hsplit, runOps_append, runOps_append]
      have : runOps [MOp.update ((1:ℚ)/10) 1, MOp.update ((1:ℚ)/10) 1] =
          fun t => ParticleManager.update (1/10) 1 (ParticleManager.update (1/10) 1 t) := rfl
      rw [this]
      exact hdead2
    have hinv := runOps_inv c1ops (initState_inv (K := ℚ) 10 false)
    have hcount : ParticleManager.countActive (runOps c1ops (initState ℚ 10 false)).pool = 0 :=
      ParticleManager.countActive_eq_zero hfinalpool
    simp [ParticleManager.getActiveCount, hinv.2, hcount]

/-- Witness for C1's per-particle conjunct: the concrete active particle with
`life = 5` survives a `dt = 1` update (capped to 0.1) with life `4.9`, and a
particle with `life = 0.05` is deactivated by it. -/
theorem C1_life_decrement_witness :
    (updateParticle false (min 1 (1/10)) 1 activeTestParticle).1.active = true ∧
      (updateParticle false (min 1 (1/10)) 1 activeTestParticle).1.life =
        activeTestParticle.life - min 1 (1/10) ∧
      updateParticle false (min 1 (1/10)) 1 { activeTestParticle with life := 1/20 } =
        (deactivateParticle { activeTestParticle with life := 1/20 }, true) := by
  obtain ⟨h1, h2⟩ := (C1_life_decrement_and_expiry.1 false 1 1 activeTestParticle rfl).2
    (by norm_num [activeTestParticle])
  refine ⟨h1, h2, ?_⟩
  exact (C1_life_decrement_and_expiry.1 false 1 1 { activeTestParticle with life := 1/20 }
    rfl).1 (by norm_num [activeTestParticle])

/-! ## Claim C7 -/

theorem insert_cellSize {K : Type} [LinearOrderedField K] [FloorRing K]
    (h : SpatialHash K) (pid : ℕ) (pos : Vec3 K) :
    (h.insert pid pos).cellSize = h.cellSize := rfl

theorem insertAll_cellSize {K : Type} [LinearOrderedField K] [FloorRing K] :
    ∀ (items : List (ℕ × Vec3 K)) (h : SpatialHash K),
      (h.insertAll items).cellSize = h.cellSize := by
  intro items
  induction items with
  | nil => intro h; rfl
  | cons a rest ih => intro h; exact ih (h.insert a.1 a.2)

theorem mem_cells_insert {K : Type} [LinearOrderedField K] [FloorRing K]
    (h : SpatialHash K) (pid : ℕ) (pos : Vec3 K) (k : ℤ × ℤ × ℤ) {x : ℕ}
    (hx : x ∈ h.cells k) : x ∈ (h.insert pid pos).cells k := by
  simp only [SpatialHash.insert]
  by_cases hk : k = h.getKey pos.x pos.y pos.z
  · subst hk
    simp [hx]
  · simp [hk, hx]

theorem mem_cells_insert_self {K : Type} [LinearOrderedField K] [FloorRing K]
    (h : SpatialHash K) (pid : ℕ) (pos : Vec3 K) :
    pid ∈ (h.insert pid pos).cells (h.getKey pos.x pos.y pos.z) := by
  simp [SpatialHash.insert]

theorem mem_cells_insertAll {K : Type} [LinearOrderedField K] [FloorRing K] :
    ∀ (items : List (ℕ × Vec3 K)) (h : SpatialHash K) (k : ℤ × ℤ × ℤ) {x : ℕ},
      x ∈ h.cells k → x ∈ (h.insertAll items).cells k := by
  intro items
  induction items with
  | nil => intro h k x hx; exact hx
  | cons a rest ih =>
      intro h k x hx
      exact ih (h.insert a.1 a.2) k (mem_cells_insert h a.1 a.2 k hx)

/-- Every inserted pair ends up in the bucket of its own cell key (keys taken
with respect to the constructed hash's cell size, which inserts preserve). -/
theorem insertAll_mem_own_cell {K : Type} [LinearOrderedField K] [FloorRing K] :
    ∀ (items : List (ℕ × Vec3 K)) (h : SpatialHash K) (pid : ℕ) (q : Vec3 K),
      (pid, q) ∈ items →
      pid ∈ (h.insertAll items).cells (h.getKey q.x q.y q.z) := by
  intro items
  induction items with
  | nil => intro h pid q hmem; simp at hmem
  | cons a rest ih =>
      intro h pid q hmem
      rcases List.mem_cons.mp hmem with rfl | hmem'
      · exact mem_cells_insertAll rest (h.insert pid q) _
          (mem_cells_insert_self h pid q)
      · exact ih (h.insert a.1 a.2) pid q hmem'

theorem abs_le_of_mul_self_le {K : Type} [LinearOrderedField K] {d c : K}
    (hc : 0 ≤ c) (h : d * d ≤ c * c) : |d| ≤ c := by
  refine abs_le.mpr ⟨?_, ?_⟩ <;> nlinarith

theorem floor_div_near {K : Type} [LinearOrderedField K] [FloorRing K]
    {a b c : K} (hc : 0 < c) (h : |a - b| ≤ c) :
    ⌊b / c⌋ - 1 ≤ ⌊a / c⌋ ∧ ⌊a / c⌋ ≤ ⌊b / c⌋ + 1 := by
  obtain ⟨h1, h2⟩ := abs_le.mp h
  have hc' : c ≠ 0 := ne_of_gt hc
  constructor
  · have hdiv : b / c - 1 ≤ a / c := by
      have hle : (b - c) / c ≤ a / c := by
        apply div_le_div_of_nonneg_right ?lin hc.le
        case lin => linarith
      calc b / c - 1 = (b - c) / c := by rw [sub_div, div_self hc']
        _ ≤ a / c := hle
    calc (⌊b / c⌋ - 1 : ℤ) = ⌊b / c - 1⌋ := (Int.floor_sub_one _).symm
      _ ≤ ⌊a / c⌋ := Int.floor_le_floor hdiv
  · have hdiv : a / c ≤ b / c + 1 := by
      have hle : a / c ≤ (b + c) / c := by
        apply div_le_div_of_nonneg_right ?lin2 hc.le
        case lin2 => linarith
      calc a / c ≤ (b + c) / c := hle
        _ = b / c + 1 := by rw [add_div, div_self hc']
    calc ⌊a / c⌋ ≤ ⌊b / c + 1⌋ := Int.floor_le_floor hdiv
      _ = ⌊b / c⌋ + 1 := Int.floor_add_one _

theorem axis_bounds_of_distSq {K : Type} [LinearOrderedField K]
    {q p : Vec3 K} {c : K} (hc : 0 ≤ c) (h : distanceSquared q p ≤ c * c) :
    |q.x - p.x| ≤ c ∧ |q.y - p.y| ≤ c ∧ |q.z - p.z| ≤ c := by
  unfold distanceSquared at h
  refine ⟨abs_le_of_mul_self_le hc (by nlinarith [mul_self_nonneg (q.y - p.y), mul_self_nonneg (q.z - p.z)]),
    abs_le_of_mul_self_le hc (by nlinarith [mul_self_nonneg (q.x - p.x), mul_self_nonneg (q.z - p.z)]),
    abs_le_of_mul_self_le hc (by nlinarith [mul_self_nonneg (q.x - p.x), mul_self_nonneg (q.y - p.y)])⟩

theorem mem_neighborOffsets {a b c : ℤ}
    (h1 : -1 ≤ a) (h2 : a ≤ 1) (h3 : -1 ≤ b) (h4 : b ≤ 1)
    (h5 : -1 ≤ c) (h6 : c ≤ 1) : (a, b, c) ∈ neighborOffsets := by
  interval_cases a <;> interval_cases b <;> interval_cases c <;> decide

/-- C7: the spatial hash's `getNearby` never misses a true neighbor — for any
finite insertion batch and any query point, every inserted id whose position is
within `cellSize` of the query point (squared-distance form) appears in the
27-cell union `getNearby` returns. -/
theorem C7_getNearby_superset (L : List (ℕ × Vec3 ℚ)) (cs : ℚ) (hcs : 0 < cs)
    (p : Vec3 ℚ) (pid : ℕ) (q : Vec3 ℚ) (hmem : (pid, q) ∈ L)
    (hnear : distanceSquared q p ≤ cs * cs) :
    pid ∈ ((SpatialHash.empty cs).insertAll L).getNearby p := by
  have hkey := insertAll_mem_own_cell L (SpatialHash.empty cs) pid q hmem
  obtain ⟨hax, hay, haz⟩ := axis_bounds_of_distSq (le_of_lt hcs) hnear
  have hx := floor_div_near hcs hax
  have hy := floor_div_near hcs hay
  have hz := floor_div_near hcs haz
  unfold SpatialHash.getNearby
  refine List.mem_flatMap.mpr
    ⟨(⌊q.x / cs⌋ - ⌊p.x / cs⌋, ⌊q.y / cs⌋ - ⌊p.y / cs⌋, ⌊q.z / cs⌋ - ⌊p.z / cs⌋), ?_, ?_⟩
  · exact mem_neighborOffsets (by omega) (by omega) (by omega) (by omega) (by omega) (by omega)
  · have harith : ∀ u v : ℤ, u + (v - u) = v := by intro u v; omega
    simp only [SpatialHash.getKey, insertAll_cellSize, SpatialHash.empty, harith]
    simpa [SpatialHash.getKey, SpatialHash.empty] using hkey

/-- Witness for C7: two points one unit apart with cell size 2; the hash query
from the first point reports the second. -/
theorem C7_getNearby_superset_witness :
    (1 : ℕ) ∈ ((SpatialHash.empty (2 : ℚ)).insertAll
      [(0, ⟨0, 0, 0⟩), (1, ⟨1, 0, 0⟩)]).getNearby ⟨0, 0, 0⟩ :=
  C7_getNearby_superset [(0, ⟨0, 0, 0⟩), (1, ⟨1, 0, 0⟩)] 2 (by norm_num)
    ⟨0, 0, 0⟩ 1 ⟨1, 0, 0⟩ (by simp)
    (by norm_num [distanceSquared])

/-! ## Claim C5 -/

/-- C5 counterexample: with the default `minDistance = 0.1`, a separation of
`1e-4` — well below the documented `1e-3` guard — does NOT yield the zero
vector from the magnetic force: the distance is clamped up to `0.1` before the
guard, so the function returns a finite force of magnitude
`strength / 0.1² = 100`. -/
theorem C5_magnetic_subthreshold_nonzero :
    length3 ((⟨1/10000, 0, 0⟩ : Vec3 ℝ) - ⟨0, 0, 0⟩) < 1/1000 ∧
      calculateMagneticForce ⟨0, 0, 0⟩ ⟨1/10000, 0, 0⟩ 1 (1/10) 10 ≠ 0 := by
  have hsub : (⟨1/10000, 0, 0⟩ : Vec3 ℝ) - ⟨0, 0, 0⟩ = ⟨1/10000, 0, 0⟩ := by
    simp [Vec3.sub_def]
  have hlen : length3 (⟨1/10000, 0, 0⟩ : Vec3 ℝ) = 1/10000 := by
    unfold length3
    rw [show ((1:ℝ)/10000) * (1/10000) + 0 * 0 + 0 * 0 = (1/10000)^2 by ring]
    rw [Real.sqrt_sq (by norm_num)]
  have hcl : clamp ((1:ℝ)/10000) (1/10) 10 = 1/10 := by
    rw [clamp, min_eq_right (by norm_num), max_eq_left (by norm_num)]
  have hnorm : normalize3 (⟨1/10000, 0, 0⟩ : Vec3 ℝ) = ⟨1, 0, 0⟩ := by
    simp only [normalize3, hlen]
    rw [if_neg (by norm_num)]
    simp [Vec3.smul_def]
  constructor
  · rw [hsub, hlen]
    norm_num
  · simp only [calculateMagneticForce, hsub, hlen, hcl]
    rw [if_neg (by norm_num), hnorm]
    intro hzero
    have hx := congrArg Vec3.x hzero
    simp only [Vec3.smul_def, Vec3.zero_def] at hx
    norm_num at hx

/-- C5 (amended): the radial gravity force returns the zero vector whenever
the raw distance to the center is below the `1e-3` guard; the magnetic force
applies the guard to the CLAMPED distance
`clamp(‖attractor − position‖, minDistance, maxDistance)` — it returns the
zero vector exactly when that clamped value is below `1e-3` (in particular
whenever `minDistance < 1e-3` and the raw distance is), but with the default
`minDistance = 0.1` a sub-threshold separation instead yields the finite
clamped force (see the counterexample). -/
theorem C5_guard_zero_vector :
    (∀ (position center : Vec3 ℝ) (strength : ℝ) (f : Falloff),
        length3 (center - position) < 1/1000 →
        calculateGravityForce position center strength f = 0) ∧
      (∀ (position attractor : Vec3 ℝ) (strength minDistance maxDistance : ℝ),
        clamp (length3 (attractor - position)) minDistance maxDistance < 1/1000 →
        calculateMagneticForce position attractor strength minDistance maxDistance = 0) := by
  constructor
  · intro position center strength f h
    simp only [calculateGravityForce]
    rw [if_pos h]
  · intro position attractor strength minDistance maxDistance h
    simp only [calculateMagneticForce]
    rw [if_pos h]

/-- Witness for C5: both guards fire at coincident points (gravity with the
raw distance 0; magnetic with `minDistance = 0`, where the clamped distance
is 0). -/
theorem C5_guard_zero_vector_witness :
    calculateGravityForce ⟨0, 0, 0⟩ ⟨0, 0, 0⟩ 1 Falloff.quadratic = 0 ∧
      calculateMagneticForce ⟨0, 0, 0⟩ ⟨0, 0, 0⟩ 1 0 10 = 0 := by
  have hsub : (⟨0, 0, 0⟩ : Vec3 ℝ) - ⟨0, 0, 0⟩ = ⟨0, 0, 0⟩ := by
    simp [Vec3.sub_def]
  have hlen : length3 (⟨0, 0, 0⟩ : Vec3 ℝ) = 0 := by
    unfold length3
    norm_num [Real.sqrt_zero]
  constructor
  · exact C5_guard_zero_vector.1 ⟨0, 0, 0⟩ ⟨0, 0, 0⟩ 1 Falloff.quadratic
      (by rw [hsub, hlen]; norm_num)
  · exact C5_guard_zero_vector.2 ⟨0, 0, 0⟩ ⟨0, 0, 0⟩ 1 0 10
      (by rw [hsub, hlen, clamp, min_eq_right (by norm_num), max_eq_left (by norm_num)]
          norm_num)

/-! ## Claim C4 -/

/-- Field-level description of what one frame does to a surviving active
particle: the physics pass adds the accumulated force to `acceleration` and
multiplies `velocity` by the damping factor; the lifecycle pass then runs
`velocity += acceleration * dt` and `position += velocity * dt` (plus, when a
spring target is set, a further velocity increment and a second `0.95`
damping after the position update), and resets `acceleration`. -/
theorem frameStep_active_fields (dt b : ℝ) (cursorPos : Vec3 ℝ)
    (st : PhysicsState) (s : ManagerState ℝ) (i : ℕ) (p : Particle ℝ)
    (hen : st.config.enabled = true) (hprm1 : st.prefersReducedMotion = false)
    (hprm2 : s.prefersReducedMotion = false)
    (hp : s.pool[i]? = some p) (hactive : p.active = true)
    (hlife : ¬ p.life - min dt (1/10) ≤ 0) :
    ∃ q : Particle ℝ, ((frameStep dt b cursorPos st s).2).pool[i]? = some q ∧
      q.acceleration = 0 ∧
      (p.targetPosition = none →
        q.velocity = st.config.damping • p.velocity + min dt (1/10) •
            (p.acceleration + totalForce { st with time := st.time + min dt (1/10) } p) ∧
          q.position = p.position + min dt (1/10) •
            (st.config.damping • p.velocity + min dt (1/10) •
              (p.acceleration + totalForce { st with time := st.time + min dt (1/10) } p))) ∧
      (∀ t : Vec3 ℝ, p.targetPosition = some t →
        q.position = p.position + min dt (1/10) •
            (st.config.damping • p.velocity + min dt (1/10) •
              (p.acceleration + totalForce { st with time := st.time + min dt (1/10) } p)) ∧
          q.velocity = ((19 : ℝ)/20) •
            ((st.config.damping • p.velocity + min dt (1/10) •
                (p.acceleration + totalForce { st with time := st.time + min dt (1/10) } p)) +
              ((1 : ℝ)/50) •
                (t - (p.position + min dt (1/10) •
                  (st.config.damping • p.velocity + min dt (1/10) •
                    (p.acceleration + totalForce { st with time := st.time + min dt (1/10) } p)))))) := by
  simp only [frameStep, PhysicsSystem.update]
  rw [if_neg (by simp [hen, hprm1])]
  simp only [ParticleManager.update, hprm2, List.map_map, List.getElem?_map, hp,
    Option.map_some']
  rw [Function.comp_apply, Function.comp_apply, if_pos hactive]
  have hlife1 : ¬ (physicsStepParticle { st with time := st.time + min dt (1/10) } p).life -
      min dt (1/10) ≤ 0 := hlife
  have hact1 : ((physicsStepParticle { st with time := st.time + min dt (1/10) } p).active = false) =
      False := by simp [physicsStepParticle, hactive]
  refine ⟨_, rfl, ?_, ?_, ?_⟩
  · simp only [updateParticle]
    rw [if_neg (by simp [physicsStepParticle, hactive]), if_neg hlife1]
    cases ht : p.targetPosition <;> simp [physicsStepParticle, ht]
  · intro ht
    simp only [updateParticle]
    rw [if_neg (by simp [physicsStepParticle, hactive]), if_neg hlife1]
    constructor <;> simp [physicsStepParticle, ht]
  · intro t ht
    simp only [updateParticle]
    rw [if_neg (by simp [physicsStepParticle, hactive]), if_neg hlife1]
    constructor <;> simp [physicsStepParticle, ht]

/-- The `y` component of the force accumulated for `c4particle` in its first
frame (`dt = 0.1`): global gravity `-0.01` plus the turbulence term; cursor,
wells, spring and boundary contribute nothing in this scenario. -/
theorem c4_totalForce_y :
    (totalForce { c4physics with time := c4physics.time + min (1/10) (1/10) } c4particle).y =
      -(1/100) + (1/100) * (Real.sin (11/100) * Real.cos (9/100)) := by
  have hb : calculateBoundaryForce ⟨0, 0, 0⟩ ⟨⟨-10, -5, -10⟩, ⟨10, 10, 10⟩⟩ (1/2) 1 =
      ⟨0, 0, 0⟩ := by
    simp only [calculateBoundaryForce, boundaryAxis, Vec3.mk.injEq]
    norm_num
  have ht : calculateTurbulenceForce ⟨0, 0, 0⟩ (1/10) (1/100) (1/2) =
      ⟨(1/100) * (Real.sin (1/10) * Real.cos (2/25)),
       (1/100) * (Real.sin (11/100) * Real.cos (9/100)),
       (1/100) * (Real.sin (9/100) * Real.cos (3/25))⟩ := by
    simp only [calculateTurbulenceForce, Vec3.smul_def, Vec3.mk.injEq]
    norm_num
  have htime : c4physics.time + min ((1:ℝ)/10) (1/10) = 1/10 := by
    simp [c4physics]
  rw [htime]
  simp only [totalForce, c4physics, c4particle, defaultPhysicsConfig]
  rw [if_neg (by simp)]
  simp only [List.foldl_nil, hb, ht, Vec3.add_def, Vec3.zero_def]
  norm_num

theorem c4_totalForce_y_neg :
    (totalForce { c4physics with time := c4physics.time + min (1/10) (1/10) } c4particle).y < 0 := by
  rw [c4_totalForce_y]
  have hs0 : 0 ≤ Real.sin (11/100) :=
    Real.sin_nonneg_of_nonneg_of_le_pi (by norm_num) (by nlinarith [Real.pi_gt_three])
  have hs1 : Real.sin (11/100) < 11/100 := Real.sin_lt (by norm_num)
  have hc1 : Real.cos (9/100) ≤ 1 := Real.cos_le_one _
  have hmul : Real.sin (11/100) * Real.cos (9/100) ≤ Real.sin (11/100) :=
    mul_le_of_le_one_right hs0 hc1
  nlinarith

/-- C4 counterexample: in the concrete first frame of `c4particle` (default
physics configuration, `dt = 0.1`), the particle's post-frame velocity differs
from what the claimed sequence — `velocity += acceleration * dt`, THEN damping,
then `position += velocity * dt` (`specIntegrate`) — would produce from the
same accumulated acceleration: the code damps the velocity before adding
`acceleration * dt`, not after. -/
theorem C4_spec_sequence_counterexample :
    ∃ q : Particle ℝ,
      ((frameStep (1/10) 1 ⟨0, 8/5, -3⟩ c4physics c4mgr).2).pool[0]? = some q ∧
        q.velocity ≠ (specIntegrate ((49:ℝ)/50) (min (1/10) (1/10))
          c4particle.velocity
          (c4particle.acceleration +
            totalForce { c4physics with time := c4physics.time + min (1/10) (1/10) } c4particle)
          c4particle.position).1 := by
  obtain ⟨q, hq, hacc, hnone, _⟩ := frameStep_active_fields (1/10) 1 ⟨0, 8/5, -3⟩ c4physics
    c4mgr 0 c4particle rfl rfl rfl rfl rfl (by norm_num [c4particle])
  obtain ⟨hv, _⟩ := hnone rfl
  refine ⟨q, hq, ?_⟩
  rw [hv]
  intro heq
  have hy := congrArg Vec3.y heq
  have hFy := c4_totalForce_y_neg
  simp only [specIntegrate, Vec3.smul_def, Vec3.add_def,
    show c4particle.velocity = (⟨0, 0, 0⟩ : Vec3 ℝ) from rfl,
    show c4particle.acceleration = (⟨0, 0, 0⟩ : Vec3 ℝ) from rfl,
    show c4physics.config.damping = (49:ℝ)/50 from rfl,
    min_self] at hy
  simp only [min_self] at hFy
  norm_num at hy
  nlinarith [hFy, hy]

/-- C4 (amended): for every active particle that survives the frame, the code
performs — in order — `velocity *= damping` (at the end of the physics pass,
BEFORE the integration), then `velocity += acceleration * dt`, then
`position += velocity * dt`; when the particle has a `targetPosition`, a
further spring increment and a second damping multiplier (`0.95`) are applied
to the velocity after the position update, so damping is not applied exactly
once in that case.  The claimed order (damping between the velocity and
position updates) does not hold (see the counterexample). -/
theorem C4_integration_order_amended (dt b : ℝ) (cursorPos : Vec3 ℝ)
    (st : PhysicsState) (s : ManagerState ℝ) (i : ℕ) (p : Particle ℝ)
    (hen : st.config.enabled = true) (hprm1 : st.prefersReducedMotion = false)
    (hprm2 : s.prefersReducedMotion = false)
    (hp : s.pool[i]? = some p) (hactive : p.active = true)
    (hlife : ¬ p.life - min dt (1/10) ≤ 0) :
    ∃ q : Particle ℝ, ((frameStep dt b cursorPos st s).2).pool[i]? = some q ∧
      q.acceleration = 0 ∧
      (p.targetPosition = none →
        q.velocity = st.config.damping • p.velocity + min dt (1/10) •
            (p.acceleration + totalForce { st with time := st.time + min dt (1/10) } p) ∧
          q.position = p.position + min dt (1/10) •
            (st.config.damping • p.velocity + min dt (1/10) •
              (p.acceleration + totalForce { st with time := st.time + min dt (1/10) } p))) ∧
      (∀ t : Vec3 ℝ, p.targetPosition = some t →
        q.position = p.position + min dt (1/10) •
            (st.config.damping • p.velocity + min dt (1/10) •
              (p.acceleration + totalForce { st with time := st.time + min dt (1/10) } p)) ∧
          q.velocity = ((19 : ℝ)/20) •
            ((st.config.damping • p.velocity + min dt (1/10) •
                (p.acceleration + totalForce { st with time := st.time + min dt (1/10) } p)) +
              ((1 : ℝ)/50) •
                (t - (p.position + min dt (1/10) •
                  (st.config.damping • p.velocity + min dt (1/10) •
                    (p.acceleration + totalForce { st with time := st.time + min dt (1/10) } p)))))) :=
  frameStep_active_fields dt b cursorPos st s i p hen hprm1 hprm2 hp hactive hlife

/-- Witness for C4 (amended), at the concrete first frame of `c4particle`. -/
theorem C4_integration_order_amended_witness :
    ∃ q : Particle ℝ,
      ((frameStep (1/10) 1 ⟨0, 8/5, -3⟩ c4physics c4mgr).2).pool[0]? = some q ∧
        q.acceleration = 0 ∧
        (c4particle.targetPosition = none →
          q.velocity = c4physics.config.damping • c4particle.velocity + min ((1:ℝ)/10) (1/10) •
              (c4particle.acceleration +
                totalForce { c4physics with time := c4physics.time + min ((1:ℝ)/10) (1/10) } c4particle) ∧
            q.position = c4particle.position + min ((1:ℝ)/10) (1/10) •
              (c4physics.config.damping • c4particle.velocity + min ((1:ℝ)/10) (1/10) •
                (c4particle.acceleration +
                  totalForce { c4physics with time := c4physics.time + min ((1:ℝ)/10) (1/10) } c4particle))) ∧
        (∀ t : Vec3 ℝ, c4particle.targetPosition = some t →
          q.position = c4particle.position + min ((1:ℝ)/10) (1/10) •
              (c4physics.config.damping • c4particle.velocity + min ((1:ℝ)/10) (1/10) •
                (c4particle.acceleration +
                  totalForce { c4physics with time := c4physics.time + min ((1:ℝ)/10) (1/10) } c4particle)) ∧
            q.velocity = ((19 : ℝ)/20) •
              ((c4physics.config.damping • c4particle.velocity + min ((1:ℝ)/10) (1/10) •
                  (c4particle.acceleration +
                    totalForce { c4physics with time := c4physics.time + min ((1:ℝ)/10) (1/10) } c4particle)) +
                ((1 : ℝ)/50) •
                  (t - (c4particle.position + min ((1:ℝ)/10) (1/10) •
                    (c4physics.config.damping • c4particle.velocity + min ((1:ℝ)/10) (1/10) •
                      (c4particle.acceleration +
                        totalForce { c4physics with time := c4physics.time + min ((1:ℝ)/10) (1/10) } c4particle)))))) :=
  C4_integration_order_amended (1/10) 1 ⟨0, 8/5, -3⟩ c4physics c4mgr 0 c4particle
    rfl rfl rfl rfl rfl (by norm_num [c4particle])

/-! ## Claim C8 -/

theorem c8_update2_eval :
    ConstellationSystem.update c8cfg2 false [c8particleA, c8particleB] 1 =
      [{ aId := 0, bId := 1, aPos := ⟨0, 0, 0⟩, bPos := ⟨1, 0, 0⟩, opacity := 1/4 }] := by
  have hbeq01 : ((0 : ℕ) == 1) = false := rfl
  have hbeq11 : ((1 : ℕ) == 1) = true := rfl
  have hbeq00 : ((0 : ℕ) == 0) = true := rfl
  have hbeq10 : ((1 : ℕ) == 0) = false := rfl
  norm_num [hbeq01, hbeq11, hbeq00, hbeq10, ConstellationSystem.update, SpatialHash.insertAll, SpatialHash.insert,
    SpatialHash.empty, SpatialHash.getKey, SpatialHash.getNearby, neighborOffsets,
    connectOuter, connectLoop, addConnection, distanceSquared, lerp, List.find?,
    c8particleA, c8particleB, c8cfg2, c4particle, Vec3.sub_def, Real.sqrt_one,
    Prod.mk.injEq]

theorem c8_update05_eval :
    ConstellationSystem.update c8cfg05 false [c8particleA, c8particleB] 1 = [] := by
  have hbeq01 : ((0 : ℕ) == 1) = false := rfl
  have hbeq11 : ((1 : ℕ) == 1) = true := rfl
  have hbeq00 : ((0 : ℕ) == 0) = true := rfl
  have hbeq10 : ((1 : ℕ) == 0) = false := rfl
  norm_num [hbeq01, hbeq11, hbeq00, hbeq10, ConstellationSystem.update, SpatialHash.insertAll, SpatialHash.insert,
    SpatialHash.empty, SpatialHash.getKey, SpatialHash.getNearby, neighborOffsets,
    connectOuter, connectLoop, addConnection, distanceSquared, lerp, List.find?,
    c8particleA, c8particleB, c8cfg05, c4particle, Vec3.sub_def, Real.sqrt_one,
    Prod.mk.injEq]

/-- C8: with particles at `(0,0,0)` and `(1,0,0)`, the connection builder with
threshold 2.0 reports exactly one connection — the pair `(0, 1)` — whose
opacity `(1 - distance/threshold)² * lerp(0.5, 1, breathingPhase)` equals
`1/4 > 0` at breathing phase 1; with threshold 0.5 it reports none. -/
theorem C8_two_particle_connections :
    (ConstellationSystem.update c8cfg2 false [c8particleA, c8particleB] 1).map
        (fun c => (c.aId, c.bId)) = [(0, 1)] ∧
      (∃ c : Connection,
        ConstellationSystem.update c8cfg2 false [c8particleA, c8particleB] 1 = [c] ∧
          0 < c.opacity) ∧
      ConstellationSystem.update c8cfg05 false [c8particleA, c8particleB] 1 = [] := by
  refine ⟨?_, ⟨_, c8_update2_eval, ?_⟩, c8_update05_eval⟩
  · rw [c8_update2_eval]
    rfl
  · norm_num

end Kagami
